import Mathlib

/-!
Verification of the Personal-Finance-Tracker core pipeline
(`src/lib/parser.ts`, `src/lib/storage.ts`) against its specification.

Modelling conventions:
* JavaScript strings are Lean `String`s; the character-level operations the
  code uses (`toLowerCase`, `includes`, `split`, `trim`, regex character
  classes) are defined below by structural recursion on `String.toList`.
* JavaScript numbers are modelled as `ℚ` (the amounts the code handles are
  decimal literals; binary-float rounding is outside every claim).
* A JavaScript `Date` is its time value in milliseconds (`Int`), with
  `none` standing for an Invalid Date (`NaN` time value); the local time
  zone is taken as UTC.
* `undefined` string fields and the empty string are collapsed: every use
  in the code (`!x`, `x || y`) treats them identically.
-/

namespace FinanceTracker

/-- Characters matched by the regex class `\s` (and removed by
`String.prototype.trim`): the whitespace used in the code's inputs. -/
def jsIsWhitespace (c : Char) : Bool :=
  c = ' ' || c = '\t' || c = '\n' || c = '\r' ||
  c = '\x0b' || c = '\x0c' || c = ' '

/-- `String.prototype.toLowerCase` on one character, for the ASCII and
Latin-1 ranges (the only characters the repository's tables contain):
`A`–`Z` and `À`–`Þ` (except `×`) shift down by 32, all else is fixed. -/
def jsToLowerChar (c : Char) : Char :=
  if 'A' ≤ c && c ≤ 'Z' then Char.ofNat (c.toNat + 32)
  else if 0xC0 ≤ c.toNat && c.toNat ≤ 0xDE && c.toNat != 0xD7 then
    Char.ofNat (c.toNat + 32)
  else c

/-- `String.prototype.toLowerCase`. -/
def jsToLower (s : String) : String :=
  ⟨s.toList.map jsToLowerChar⟩

/-- Character-list prefix test. -/
def startsWith : List Char → List Char → Bool
  | [], _ => true
  | _ :: _, [] => false
  | a :: asc, b :: bs => a = b && startsWith asc bs

/-- Character-list substring test: does `l` contain `pat` contiguously? -/
def hasSubstr (pat : List Char) : List Char → Bool
  | [] => startsWith pat []
  | c :: cs => startsWith pat (c :: cs) || hasSubstr pat cs

/-- `String.prototype.includes pat` — substring test. -/
def jsIncludes (s pat : String) : Bool :=
  hasSubstr pat.toList s.toList

/-- `String.prototype.split` at a single-character separator, on lists:
`''` splits to `['']`, and a trailing separator yields a trailing `''`. -/
def splitAtChar (sep : Char) : List Char → List (List Char)
  | [] => [[]]
  | c :: cs =>
    if c = sep then [] :: splitAtChar sep cs
    else
      match splitAtChar sep cs with
      | [] => [[c]]
      | h :: t => (c :: h) :: t

/-- `String.prototype.split` at a single-character separator. -/
def jsSplit (s : String) (sep : Char) : List String :=
  (splitAtChar sep s.toList).map fun l => ⟨l⟩

/-- `String.prototype.trim`: strip leading and trailing whitespace. -/
def jsTrim (s : String) : String :=
  ⟨((s.toList.dropWhile jsIsWhitespace).reverse.dropWhile jsIsWhitespace).reverse⟩

/-- Consume a maximal prefix of decimal digits: returns the accumulated
value, the number of digits consumed, and the rest of the input. -/
def grabDigits (acc n : Nat) : List Char → Nat × Nat × List Char
  | [] => (acc, n, [])
  | c :: cs =>
    if c.isDigit then grabDigits (acc * 10 + (c.toNat - 48)) (n + 1) cs
    else (acc, n, c :: cs)

/-- Strip an optional leading sign; returns the sign as `1` or `-1`. -/
def grabSign : List Char → Int × List Char
  | '-' :: cs => (-1, cs)
  | '+' :: cs => (1, cs)
  | l => (1, l)

/-- JavaScript `parseInt` with no radix argument, on the decimal forms the
date fields use: skip leading whitespace, optional sign, then the longest
prefix of decimal digits; `none` models `NaN` (no digit found).  The `0x`
hexadecimal prefix form is not modelled (no input in the repository's
domain uses it). -/
def jsParseInt (s : String) : Option Int :=
  let l := s.toList.dropWhile jsIsWhitespace
  let (sign, l1) := grabSign l
  let (v, n, _) := grabDigits 0 0 l1
  if n = 0 then none else some (sign * (v : Int))

/-- JavaScript `parseFloat`: skip leading whitespace, optional sign, then
the longest valid prefix of a decimal literal `digits [. digits] [e|E
[sign] digits]`; `none` models `NaN`.  `Infinity` literals are not
modelled (treated as unparsable; no claim depends on them). -/
def jsParseFloat (s : String) : Option ℚ :=
  let l := s.toList.dropWhile jsIsWhitespace
  let (sign, l1) := grabSign l
  let (ip, ni, r1) := grabDigits 0 0 l1
  let (fp, nf, r2) :=
    match r1 with
    | '.' :: t => grabDigits 0 0 t
    | _ => (0, 0, r1)
  if ni = 0 && nf = 0 then none
  else
    let mant : ℚ := (sign : ℚ) * ((ip : ℚ) + (fp : ℚ) / (10 : ℚ) ^ nf)
    let e : Int :=
      match r2 with
      | 'e' :: t | 'E' :: t =>
        let (es, t1) := grabSign t
        let (ev, en, _) := grabDigits 0 0 t1
        if en = 0 then 0 else es * (ev : Int)
      | _ => 0
    some (if 0 ≤ e then mant * (10 : ℚ) ^ e.toNat else mant / (10 : ℚ) ^ (-e).toNat)

/-- `parseAmount` (parser.ts:73–77): strip `$`, `,` and whitespace
anywhere in the string, `parseFloat` the rest, and turn `NaN` into `0`. -/
def parseAmount (amountStr : String) : ℚ :=
  let cleaned : String :=
    ⟨amountStr.toList.filter fun c => !(c = '$' || c = ',' || jsIsWhitespace c)⟩
  (jsParseFloat cleaned).getD 0

/-! ### JavaScript dates

A `Date` is its ECMA-262 time value in milliseconds since the epoch
(local time taken as UTC); `none` is an Invalid Date (`NaN` time value). -/

abbrev JSDate := Option Int

/-- ECMA-262 `DayFromYear`. -/
def dayFromYear (y : Int) : Int :=
  365 * (y - 1970) + (y - 1969).fdiv 4 - (y - 1901).fdiv 100 + (y - 1601).fdiv 400

/-- Gregorian leap-year test. -/
def isLeapYear (y : Int) : Bool :=
  (y.emod 4 = 0 && y.emod 100 ≠ 0) || y.emod 400 = 0

/-- Day of year on which (zero-based) month `m` starts. -/
def monthStartDay (leap : Bool) (m : Nat) : Nat :=
  [0, 31, 59, 90, 120, 151, 181, 212, 243, 273, 304, 334].getD m 0
    + (if leap && 2 ≤ m then 1 else 0)

/-- ECMA-262 `MakeDay`: days since the epoch for constructor arguments
`(year, zero-based month, day)`, normalizing out-of-range months and days. -/
def makeDay (y m d : Int) : Int :=
  let ym := y + m.fdiv 12
  let mn := (m.emod 12).toNat
  dayFromYear ym + (monthStartDay (isLeapYear ym) mn : Int) + (d - 1)

/-- The `new Date(year, month, day)` constructor: `NaN` arguments give an
Invalid Date; a year `0 ≤ y ≤ 99` is taken as `1900 + y`; the result is
clipped to the representable time range. -/
def jsNewDateYMD (y m d : Option Int) : JSDate :=
  match y, m, d with
  | some y, some m, some d =>
    let yr := if 0 ≤ y && y ≤ 99 then 1900 + y else y
    let t := makeDay yr m d * 86400000
    if t.natAbs ≤ 8640000000000000 then some t else none
  | _, _, _ => none

/-- Civil date from days since the epoch (proleptic Gregorian). -/
def civilFromDays (z0 : Int) : Int × Int × Int :=
  let z := z0 + 719468
  let era := z.fdiv 146097
  let doe := z - era * 146097
  let yoe := (doe - doe.fdiv 1460 + doe.fdiv 36524 - doe.fdiv 146096).fdiv 365
  let y := yoe + era * 400
  let doy := doe - (365 * yoe + yoe.fdiv 4 - yoe.fdiv 100)
  let mp := (5 * doy + 2).fdiv 153
  let d := doy - (153 * mp + 2).fdiv 5 + 1
  let m := mp + (if mp < 10 then 3 else -9)
  (if m ≤ 2 then y + 1 else y, m, d)

/-- `Date.prototype.toLocaleDateString` in the en-US default used by the
export component: `M/D/YYYY`, or `"Invalid Date"` for an invalid date. -/
def toLocaleDateString : JSDate → String
  | none => "Invalid Date"
  | some t =>
    let c := civilFromDays (t.fdiv 86400000)
    toString c.2.1 ++ "/" ++ toString c.2.2 ++ "/" ++ toString c.1

/-! ### Category tables (parser.ts:4–55) -/

/-- `CATEGORY_COLORS` (parser.ts:4–15), in source order. -/
def CATEGORY_COLORS : List (String × String) :=
  [("Restaurant", "#ef4444"), ("Groceries", "#f97316"), ("Gas & Fuel", "#eab308"),
   ("Shopping", "#22c55e"), ("Entertainment", "#06b6d4"), ("Subscriptions", "#3b82f6"),
   ("Travel", "#8b5cf6"), ("Health", "#ec4899"), ("Fees", "#6b7280"), ("Other", "#a3a3a3")]

/-- Property read `CATEGORY_COLORS[k]`. -/
def colorLookup (k : String) : Option String :=
  (CATEGORY_COLORS.find? fun p => p.1 == k).map fun p => p.2

/-- `simplifyCategory` (parser.ts:23–55).  The third Restaurant keyword is
the source's literal byte sequence `caf` `U+00C3` `U+00A9` (mojibake). -/
def simplifyCategory (category : String) : String :=
  let lower := jsToLower category
  if jsIncludes lower "restaurant" || jsIncludes lower "food" ||
     jsIncludes lower "cafÃ©" || jsIncludes lower "fast food" then "Restaurant"
  else if jsIncludes lower "groceries" || jsIncludes lower "supermarket" then "Groceries"
  else if jsIncludes lower "gas" || jsIncludes lower "fuel" ||
     jsIncludes lower "auto" then "Gas & Fuel"
  else if jsIncludes lower "merchandise" || jsIncludes lower "supplies" ||
     jsIncludes lower "clothing" || jsIncludes lower "electronics" then "Shopping"
  else if jsIncludes lower "entertainment" || jsIncludes lower "movie" ||
     jsIncludes lower "theater" then "Entertainment"
  else if jsIncludes lower "computer services" ||
     jsIncludes lower "telecommunications" then "Subscriptions"
  else if jsIncludes lower "travel" || jsIncludes lower "airline" ||
     jsIncludes lower "lodging" || jsIncludes lower "rental" then "Travel"
  else if jsIncludes lower "drug" || jsIncludes lower "pharmacy" ||
     jsIncludes lower "health" then "Health"
  else if jsIncludes lower "fee" || jsIncludes lower "adjustment" ||
     jsIncludes lower "interest" then "Fees"
  else "Other"

/-- `getCategoryColor` (parser.ts:17–21): normalize, then look the result
up in the color table, `||`-defaulting to the `"Other"` color. -/
def getCategoryColor (category : String) : String :=
  let simplified := simplifyCategory category
  (colorLookup simplified).getD ((colorLookup "Other").getD "")

/-- `parseDate` (parser.ts:61–71).  `now` is the ambient clock (the time
value `new Date()` would produce) and `genericParse` is the
implementation-defined `new Date(string)` parser of the host engine
(`none` = unparsable). -/
def parseDate (now : Int) (genericParse : String → Option Int)
    (dateStr : String) : JSDate :=
  let parts := jsSplit dateStr '/'
  if parts.length = 3 then
    jsNewDateYMD (jsParseInt (parts.getD 2 ""))
      ((jsParseInt (parts.getD 0 "")).map fun x => x - 1)
      (jsParseInt (parts.getD 1 ""))
  else
    match genericParse dateStr with
    | some t => some t
    | none => some now

/-! ### The record model (types/index.ts) and the CSV→Record pipeline -/

/-- `Transaction` (types/index.ts:1–10); `city`/`state` are the optional
fields `city?: string` / `state?: string` (`none` = `undefined`). -/
structure Transaction where
  id : String
  date : JSDate
  description : String
  amount : ℚ
  category : String
  city : Option String
  state : Option String
  fileId : String
deriving Repr, DecidableEq

/-- One header-keyed row as produced by `Papa.parse` with `header: true`
(headers already trimmed by the `transformHeader` option).  An absent key
and an empty value are collapsed to `""`: every access in `parseCSV`
(`!x`, `x || y`) treats `undefined` and `''` identically. -/
abbrev Row := List (String × String)

/-- The JavaScript property read `row[k]` under the collapse above. -/
def Row.lookupField (row : Row) (k : String) : String :=
  ((row.find? fun p => p.1 == k).map fun p => p.2).getD ""

/-- The body of the `for` loop of `parseCSV` (parser.ts:88–115): builds
the `Transaction` pushed for `row`, or `none` when the row is skipped.
`id` is the value `generateId()` returns for this push. -/
def buildTransaction (now : Int) (genericParse : String → Option Int)
    (fileId id : String) (row : Row) : Option Transaction :=
  let date := row.lookupField "Date"
  let description := row.lookupField "Description"
  let amountStr := row.lookupField "Amount"
  let category := if row.lookupField "Category" = "" then "Other"
                  else row.lookupField "Category"
  if date = "" || description = "" || amountStr = "" then none
  else
    let amount := parseAmount amountStr
    if amount ≤ 0 then none
    else
      let cityState := row.lookupField "City/State"
      let parts := (jsSplit cityState '\n').map jsTrim
      some { id := id
             date := parseDate now genericParse date
             description := jsTrim description
             amount := amount
             category := simplifyCategory category
             city := parts.get? 0
             state := parts.get? 1
             fileId := fileId }

/-- The loop of `parseCSV` over all rows; `genId i` is the value of the
`i`-th call to the (`Math.random`-based, here parametrised) `generateId`. -/
def buildTransactions (now : Int) (genericParse : String → Option Int)
    (genId : Nat → String) (fileId : String) : Nat → List Row → List Transaction
  | _, [] => []
  | i, row :: rest =>
    match buildTransaction now genericParse fileId (genId i) row with
    | some t => t :: buildTransactions now genericParse genId fileId (i + 1) rest
    | none => buildTransactions now genericParse genId fileId i rest

/-- `transactions.sort((a, b) => b.date.getTime() - a.date.getTime())`
(parser.ts:118), as a stable sort by descending time value.  An Invalid
Date gives a `NaN` comparator result, for which the JS order is
implementation-defined; this model treats it as time `0`. -/
def sortByDateDesc (ts : List Transaction) : List Transaction :=
  ts.insertionSort fun a b => b.date.getD 0 ≤ a.date.getD 0

/-- `parseCSV` (parser.ts:79–121).  `Papa.parse` is an external library:
it is abstracted as the list of header-keyed `rows` it yields for
`csvContent` (its `header: true`, `skipEmptyLines` and header-trimming
configuration are part of the `Row` reading above).  `now` is the
ambient clock, `genericParse` the engine's string date parser, `genId`
the id generator. -/
def parseCSV (now : Int) (genericParse : String → Option Int)
    (genId : Nat → String) (rows : List Row) (fileId : String) : List Transaction :=
  sortByDateDesc (buildTransactions now genericParse genId fileId 0 rows)

/-! ### Aggregators (parser.ts:135–187) -/

/-- `CategoryTotal` (types/index.ts:19–24). -/
structure CategoryTotal where
  category : String
  total : ℚ
  count : Nat
  color : String
deriving Repr, DecidableEq

/-- An entry of `getTopMerchants`' result. -/
structure MerchantTotal where
  name : String
  total : ℚ
  count : Nat
deriving Repr, DecidableEq

/-- `map.set(k, { total: existing.total + amt, count: existing.count + 1 })`
over a JS `Map` carried as an association list in insertion order
(`Map.set` updates an existing key in place, appends a new key). -/
def upsertTotal (k : String) (amt : ℚ) :
    List (String × ℚ × Nat) → List (String × ℚ × Nat)
  | [] => [(k, amt, 1)]
  | (k', t, c) :: rest =>
    if k' = k then (k', t + amt, c + 1) :: rest
    else (k', t, c) :: upsertTotal k amt rest

/-- The accumulation loop of `getCategoryTotals` (parser.ts:138–144). -/
def categoryFold (ts : List Transaction) : List (String × ℚ × Nat) :=
  ts.foldl (fun m t => upsertTotal t.category t.amount m) []

/-- `getCategoryTotals` (parser.ts:135–154): group by category, attach
the display color, sort by `(a, b) => b.total - a.total` (descending). -/
def getCategoryTotals (ts : List Transaction) : List CategoryTotal :=
  ((categoryFold ts).map fun e =>
      { category := e.1, total := e.2.1, count := e.2.2,
        color := getCategoryColor e.1 : CategoryTotal }
    ).insertionSort fun a b => b.total ≤ a.total

/-- The merchant-name heuristic of `getTopMerchants` (parser.ts:175):
`description.split(/\d/)[0].trim()` — the text before the first decimal
digit, trimmed. -/
def merchantName (description : String) : String :=
  jsTrim ⟨description.toList.takeWhile fun c => !c.isDigit⟩

/-- The accumulation loop of `getTopMerchants` (parser.ts:173–181). -/
def merchantFold (ts : List Transaction) : List (String × ℚ × Nat) :=
  ts.foldl (fun m t => upsertTotal (merchantName t.description) t.amount m) []

/-- `Array.prototype.slice(0, e)`: a negative end index counts from the
end of the array. -/
def jsSliceTo (l : List α) (e : Int) : List α :=
  let len : Int := l.length
  let stop := if e < 0 then max (len + e) 0 else min e len
  l.take stop.toNat

/-- `getTopMerchants` (parser.ts:170–187): bucket by `merchantName`,
sort by `(a, b) => b.total - a.total`, then `.slice(0, limit)`.  The
source defaults `limit` to `10`; the parameter is explicit here. -/
def getTopMerchants (ts : List Transaction) (limit : Int) : List MerchantTotal :=
  jsSliceTo
    (((merchantFold ts).map fun e =>
        { name := e.1, total := e.2.1, count := e.2.2 : MerchantTotal }
      ).insertionSort fun a b => b.total ≤ a.total)
    limit

/-! ### CSV export (storage.ts:52–64) -/

/-- `Number.prototype.toFixed(2)` on the exact rational value: the
integer numerator over `100` closest to `100·x` (ties to the larger),
rendered with two digits after the point.  (The `-0.00` edge of negative
arguments above `-0.005` is not modelled; amounts are positive.) -/
def toFixed2 (x : ℚ) : String :=
  let n : Int := ⌊x * 100 + 1 / 2⌋
  let sgn := if n < 0 then "-" else ""
  let m := n.natAbs
  sgn ++ toString (m / 100) ++ "." ++
    (if m % 100 < 10 then "0" else "") ++ toString (m % 100)

/-- `t.description.replace(/"/g, '""')`. -/
def escapeQuotes (s : String) : String :=
  ⟨s.toList.foldr (fun c acc => if c = '"' then '"' :: '"' :: acc else c :: acc) []⟩

/-- `Array.prototype.join(sep)`. -/
def joinWith (sep : String) : List String → String
  | [] => ""
  | [x] => x
  | x :: xs => x ++ sep ++ joinWith sep xs

/-- `exportToCSV` (storage.ts:52–64): header row, then per transaction
`[date, "description", amount.toFixed(2), category, city || '',
state || '']`, fields joined by `,`, lines joined by `\n`. -/
def exportToCSV (ts : List Transaction) : String :=
  let headers := ["Date", "Description", "Amount", "Category", "City", "State"]
  let rows := ts.map fun t =>
    [toLocaleDateString t.date,
     "\"" ++ escapeQuotes t.description ++ "\"",
     toFixed2 t.amount,
     t.category,
     t.city.getD "",
     t.state.getD ""]
  joinWith "\n" (joinWith "," headers :: rows.map (joinWith ","))

/-! ## Lemmas about the association-list `Map` -/

theorem upsertTotal_keys (k : String) (amt : ℚ) (m : List (String × ℚ × Nat)) :
    (upsertTotal k amt m).map Prod.fst =
      if k ∈ m.map Prod.fst then m.map Prod.fst else m.map Prod.fst ++ [k] := by
  induction m with
  | nil => simp [upsertTotal]
  | cons e rest ih =>
    obtain ⟨k', t, c⟩ := e
    by_cases h : k' = k
    · subst h; simp [upsertTotal]
    · by_cases hk : k ∈ rest.map Prod.fst <;>
        simp [upsertTotal, h, ih, hk, Ne.symm h]

theorem mem_upsertTotal_keys {k0 k : String} {amt : ℚ} {m : List (String × ℚ × Nat)} :
    k ∈ (upsertTotal k0 amt m).map Prod.fst ↔ k = k0 ∨ k ∈ m.map Prod.fst := by
  rw [upsertTotal_keys]
  by_cases h : k0 ∈ m.map Prod.fst
  · rw [if_pos h]
    constructor
    · exact Or.inr
    · rintro (rfl | hk)
      exacts [h, hk]
  · rw [if_neg h]
    simp [or_comm]

theorem upsertTotal_keys_nodup {k : String} {amt : ℚ} {m : List (String × ℚ × Nat)}
    (h : (m.map Prod.fst).Nodup) : ((upsertTotal k amt m).map Prod.fst).Nodup := by
  rw [upsertTotal_keys]
  split
  · exact h
  · rename_i hk
    simp [List.nodup_append, h, hk]

theorem upsertTotal_sum (k : String) (amt : ℚ) (m : List (String × ℚ × Nat)) :
    ((upsertTotal k amt m).map fun e => e.2.1).sum = (m.map fun e => e.2.1).sum + amt := by
  induction m with
  | nil => simp [upsertTotal]
  | cons e rest ih =>
    obtain ⟨k', t, c⟩ := e
    by_cases h : k' = k
    · subst h
      simp [upsertTotal]
      ring
    · simp only [upsertTotal, if_neg h, List.map_cons, List.sum_cons, ih]
      ring

theorem foldl_upsert_mem_keys (key : Transaction → String) (amt : Transaction → ℚ)
    (ts : List Transaction) (m : List (String × ℚ × Nat)) (k : String) :
    (k ∈ ((ts.foldl (fun m t => upsertTotal (key t) (amt t) m) m).map Prod.fst)) ↔
      k ∈ m.map Prod.fst ∨ ∃ t ∈ ts, key t = k := by
  induction ts generalizing m with
  | nil => simp
  | cons t0 rest ih =>
    simp only [List.foldl_cons]
    rw [ih, mem_upsertTotal_keys]
    constructor
    · rintro ((rfl | hm) | ⟨t, htm, rfl⟩)
      · exact Or.inr ⟨t0, by simp, rfl⟩
      · exact Or.inl hm
      · exact Or.inr ⟨t, by simp [htm], rfl⟩
    · rintro (hm | ⟨t, htm, rfl⟩)
      · exact Or.inl (Or.inr hm)
      · rcases List.mem_cons.mp htm with rfl | htm'
        · exact Or.inl (Or.inl rfl)
        · exact Or.inr ⟨t, htm', rfl⟩

theorem foldl_upsert_keys_nodup (key : Transaction → String) (amt : Transaction → ℚ)
    (ts : List Transaction) (m : List (String × ℚ × Nat))
    (h : (m.map Prod.fst).Nodup) :
    ((ts.foldl (fun m t => upsertTotal (key t) (amt t) m) m).map Prod.fst).Nodup := by
  induction ts generalizing m with
  | nil => simpa
  | cons t0 rest ih => exact ih _ (upsertTotal_keys_nodup h)

theorem foldl_upsert_sum (key : Transaction → String) (amt : Transaction → ℚ)
    (ts : List Transaction) (m : List (String × ℚ × Nat)) :
    ((ts.foldl (fun m t => upsertTotal (key t) (amt t) m) m).map fun e => e.2.1).sum =
      (m.map fun e => e.2.1).sum + (ts.map amt).sum := by
  induction ts generalizing m with
  | nil => simp
  | cons t0 rest ih =>
    simp only [List.foldl_cons, List.map_cons, List.sum_cons]
    rw [ih, upsertTotal_sum]
    ring

/-! ## Lemmas about the CSV→Record pipeline -/

theorem string_mk_toList (s : String) : (⟨s.toList⟩ : String) = s := rfl

theorem splitAtChar_sepFree {sep : Char} {l : List Char} (h : sep ∉ l) :
    splitAtChar sep l = [l] := by
  induction l with
  | nil => rfl
  | cons c cs ih =>
    have hc : ¬ c = sep := fun hce => h (hce ▸ List.mem_cons_self c cs)
    have hcs : sep ∉ cs := fun hm => h (List.mem_cons_of_mem _ hm)
    simp only [splitAtChar, if_neg hc, ih hcs]

theorem splitAtChar_append {sep : Char} {la lb : List Char}
    (ha : sep ∉ la) (hb : sep ∉ lb) :
    splitAtChar sep (la ++ sep :: lb) = [la, lb] := by
  induction la with
  | nil =>
    simp [splitAtChar, splitAtChar_sepFree hb]
  | cons c cs ih =>
    have hc : ¬ c = sep := fun hce => ha (hce ▸ List.mem_cons_self c cs)
    have hcs : sep ∉ cs := fun hm => ha (List.mem_cons_of_mem _ hm)
    simp only [List.cons_append, splitAtChar, if_neg hc, List.append_eq, ih hcs]

theorem jsSplit_two {a b : String} (ha : '\n' ∉ a.toList) (hb : '\n' ∉ b.toList) :
    jsSplit (a ++ "\n" ++ b) '\n' = [a, b] := by
  unfold jsSplit
  have hdata : (a ++ "\n" ++ b).toList = a.toList ++ '\n' :: b.toList := by
    show (a ++ "\n" ++ b).data = a.data ++ '\n' :: b.data
    rw [String.data_append, String.data_append, List.append_assoc]
    rfl
  rw [hdata, splitAtChar_append ha hb]
  simp [string_mk_toList]

theorem buildTransaction_fields {now : Int} {gp : String → Option Int}
    {fileId id : String} {row : Row} {t : Transaction}
    (h : buildTransaction now gp fileId id row = some t) :
    0 < t.amount ∧
    t.city = ((jsSplit (row.lookupField "City/State") '\n').map jsTrim).get? 0 ∧
    t.state = ((jsSplit (row.lookupField "City/State") '\n').map jsTrim).get? 1 := by
  simp only [buildTransaction] at h
  split at h
  · exact absurd h (by simp)
  · split at h
    · exact absurd h (by simp)
    · rename_i hpos
      injection h with h
      subst h
      exact ⟨lt_of_not_le hpos, rfl, rfl⟩

theorem mem_buildTransactions {now : Int} {gp : String → Option Int}
    {genId : Nat → String} {fileId : String} :
    ∀ {rows : List Row} {i : Nat} {t : Transaction},
      t ∈ buildTransactions now gp genId fileId i rows →
      ∃ row ∈ rows, ∃ id, buildTransaction now gp fileId id row = some t := by
  intro rows
  induction rows with
  | nil => intro i t ht; simp [buildTransactions] at ht
  | cons row rest ih =>
    intro i t ht
    cases hb : buildTransaction now gp fileId (genId i) row with
    | some t' =>
      have ht' : t ∈ t' :: buildTransactions now gp genId fileId (i + 1) rest := by
        rw [buildTransactions, hb] at ht
        exact ht
      rcases List.mem_cons.mp ht' with rfl | hmem
      · exact ⟨row, List.mem_cons_self _ _, genId i, hb⟩
      · obtain ⟨r, hr, id, hid⟩ := ih hmem
        exact ⟨r, List.mem_cons_of_mem _ hr, id, hid⟩
    | none =>
      have ht' : t ∈ buildTransactions now gp genId fileId i rest := by
        rw [buildTransactions, hb] at ht
        exact ht
      obtain ⟨r, hr, id, hid⟩ := ih ht'
      exact ⟨r, List.mem_cons_of_mem _ hr, id, hid⟩

theorem mem_parseCSV {now : Int} {gp : String → Option Int} {genId : Nat → String}
    {rows : List Row} {fileId : String} {t : Transaction}
    (ht : t ∈ parseCSV now gp genId rows fileId) :
    ∃ row ∈ rows, ∃ id, buildTransaction now gp fileId id row = some t := by
  unfold parseCSV sortByDateDesc at ht
  exact mem_buildTransactions ((List.mem_insertionSort _).mp ht)

instance : IsTotal CategoryTotal fun a b => b.total ≤ a.total :=
  ⟨fun a b => le_total b.total a.total⟩

instance : IsTrans CategoryTotal fun a b => b.total ≤ a.total :=
  ⟨fun _ _ _ h1 h2 => le_trans h2 h1⟩

/-! ## Claims about the aggregators -/

/-- C8: for every record sequence, the totals of `getCategoryTotals`' output
sum to the sum of all input amounts, and the output is sorted
non-increasingly by total. -/
theorem getCategoryTotals_sum_and_sorted (ts : List Transaction) :
    ((getCategoryTotals ts).map CategoryTotal.total).sum = (ts.map Transaction.amount).sum ∧
    (getCategoryTotals ts).Sorted fun a b => b.total ≤ a.total := by
  constructor
  · unfold getCategoryTotals
    rw [((List.perm_insertionSort _ _).map CategoryTotal.total).sum_eq, List.map_map]
    unfold categoryFold
    have := foldl_upsert_sum (fun t => t.category) (fun t => t.amount) ts []
    simpa using this
  · exact List.sorted_insertionSort _ _

/-- A description that begins with a decimal digit. -/
def startsWithDigit (s : String) : Bool :=
  match s.toList with
  | c :: _ => c.isDigit
  | [] => false

/-- C10: the merchant extractor maps every description that begins with a
digit to the empty-string merchant name, and the merchant map of
`getTopMerchants` has no duplicate keys — so all such records fall into
the single bucket named `""`. -/
theorem getTopMerchants_digit_bucket (ts : List Transaction) :
    ((merchantFold ts).map Prod.fst).Nodup ∧
    ∀ t ∈ ts, startsWithDigit t.description = true → merchantName t.description = "" := by
  constructor
  · unfold merchantFold
    exact foldl_upsert_keys_nodup _ _ ts [] (by simp)
  · intro t _ h
    unfold merchantName
    unfold startsWithDigit at h
    cases hd : t.description.toList with
    | nil =>
      rw [hd] at h
      simp at h
    | cons c cs =>
      rw [hd] at h
      replace h : c.isDigit = true := by simpa using h
      have hList : List.takeWhile (fun c => !c.isDigit) (c :: cs) = [] := by
        simp [List.takeWhile, h]
      rw [hList]
      decide

/-- Demo record whose description begins with a digit. -/
def txSeven : Transaction :=
  { id := "s", date := none, description := "7-ELEVEN 33021", amount := 4,
    category := "Other", city := none, state := none, fileId := "f" }

theorem getTopMerchants_digit_bucket_witness :
    startsWithDigit txSeven.description = true ∧
    merchantName txSeven.description = "" ∧
    ((merchantFold [txSeven]).map Prod.fst).Nodup :=
  ⟨by decide,
   (getTopMerchants_digit_bucket [txSeven]).2 txSeven (List.mem_singleton.mpr rfl)
     (by decide),
   (getTopMerchants_digit_bucket [txSeven]).1⟩

/-- Demo record: distinct merchant `"ALPHA"`, amount 5. -/
def txAlpha : Transaction :=
  { id := "p", date := none, description := "ALPHA", amount := 5, category := "Other",
    city := none, state := none, fileId := "f" }

/-- Demo record: distinct merchant `"BETA"`, amount 3. -/
def txBeta : Transaction :=
  { id := "q", date := none, description := "BETA", amount := 3, category := "Other",
    city := none, state := none, fileId := "f" }

/-- C1 counterexample: with two distinct merchants, `limit = -1` does not
yield an empty result — `Array.prototype.slice(0, -1)` treats a negative
end index as counting from the end, so only the last ranking entry is
dropped and `ALPHA` is still returned. -/
theorem getTopMerchants_neg_limit_counterexample :
    getTopMerchants [txAlpha, txBeta] (-1) =
      [{ name := "ALPHA", total := 5, count := 1 }] ∧
    getTopMerchants [txAlpha, txBeta] (-1) ≠ [] := by
  have h : getTopMerchants [txAlpha, txBeta] (-1) =
      [{ name := "ALPHA", total := 5, count := 1 }] := by
    simp [getTopMerchants, merchantFold, upsertTotal, merchantName, jsTrim,
      jsIsWhitespace, List.insertionSort, List.orderedInsert, jsSliceTo, txAlpha, txBeta]
    norm_num
  exact ⟨h, by rw [h]; simp⟩

/-- C1 (amended): `limit = 0` yields the empty result, but a negative
limit is an end-relative slice bound: it keeps all but the last `|limit|`
ranking entries (empty only when `|limit|` reaches the number of distinct
merchants).  Any `limit` at least the number of distinct extracted
merchant names yields an entry for every distinct merchant name. -/
theorem getTopMerchants_limit (ts : List Transaction) (limit : Int) :
    getTopMerchants ts 0 = [] ∧
    (limit < 0 → (getTopMerchants ts limit).length =
        (((merchantFold ts).length : Int) + limit).toNat) ∧
    (((merchantFold ts).length : Int) ≤ limit →
      ∀ name : String,
        (∃ e ∈ getTopMerchants ts limit, e.name = name) ↔
          ∃ t ∈ ts, merchantName t.description = name) := by
  refine ⟨?_, ?_, ?_⟩
  · simp [getTopMerchants, jsSliceTo]
  · intro hneg
    simp only [getTopMerchants, jsSliceTo]
    rw [if_pos hneg, List.length_take]
    simp only [List.length_insertionSort, List.length_map]
    omega
  · intro hge name
    simp only [getTopMerchants, jsSliceTo]
    set L := ((merchantFold ts).map fun e =>
        ({ name := e.1, total := e.2.1, count := e.2.2 } : MerchantTotal)).insertionSort
        (fun a b => b.total ≤ a.total) with hL
    have hlen : L.length = (merchantFold ts).length := by
      rw [hL]; simp
    rw [if_neg (by omega : ¬ limit < 0)]
    have hstop : (min limit (L.length : Int)).toNat = L.length := by omega
    rw [hstop, List.take_length]
    have hmem : ∀ e : MerchantTotal, e ∈ L ↔ e ∈ (merchantFold ts).map fun x =>
        ({ name := x.1, total := x.2.1, count := x.2.2 } : MerchantTotal) := by
      intro e; rw [hL]; exact List.mem_insertionSort _
    have hkeys := foldl_upsert_mem_keys (fun t => merchantName t.description)
        (fun t => t.amount) ts [] name
    constructor
    · rintro ⟨e, heL, hename⟩
      obtain ⟨x, hx, hxe⟩ := List.mem_map.mp ((hmem e).mp heL)
      have hxn : x.1 = name := by rw [← hename, ← hxe]
      have hx1 : name ∈ (ts.foldl
          (fun m t => upsertTotal (merchantName t.description) t.amount m) []).map
            Prod.fst := by
        exact hxn ▸ List.mem_map_of_mem Prod.fst hx
      simpa using hkeys.mp hx1
    · rintro ⟨t, htm, hname⟩
      have hname' : name ∈ (merchantFold ts).map Prod.fst := by
        have : name ∈ (ts.foldl
            (fun m t => upsertTotal (merchantName t.description) t.amount m) []).map
              Prod.fst := hkeys.mpr (Or.inr ⟨t, htm, hname⟩)
        exact this
      obtain ⟨x, hx, hx1⟩ := List.mem_map.mp hname'
      exact ⟨{ name := x.1, total := x.2.1, count := x.2.2 },
        (hmem _).mpr (List.mem_map_of_mem _ hx), hx1⟩

theorem getTopMerchants_limit_witness :
    ((-1 : Int) < 0 ∧ (getTopMerchants [txAlpha, txBeta] (-1)).length = 1) ∧
    ((((merchantFold [txAlpha, txBeta]).length : Int) ≤ 5) ∧
      ∃ e ∈ getTopMerchants [txAlpha, txBeta] 5, e.name = "ALPHA") := by
  constructor
  · refine ⟨by decide, ?_⟩
    have h := (getTopMerchants_limit [txAlpha, txBeta] (-1)).2.1 (by decide)
    rw [h]
    decide
  · exact ⟨by decide,
      ((getTopMerchants_limit [txAlpha, txBeta] 5).2.2 (by decide) "ALPHA").mpr
        ⟨txAlpha, by simp, by decide⟩⟩

/-! ## Claims about the category normalizer and color table -/

/-- C7: every input string whose lowercased form contains both
`"restaurant"` and `"fee"` normalizes to `"Restaurant"`: the keyword
groups are tested in a fixed order, the first match wins, and the
Restaurant group precedes the Fees group. -/
theorem simplifyCategory_restaurant_before_fees (s : String)
    (hr : jsIncludes (jsToLower s) "restaurant" = true)
    (hf : jsIncludes (jsToLower s) "fee" = true) :
    simplifyCategory s = "Restaurant" := by
  simp [simplifyCategory, hr]

theorem simplifyCategory_restaurant_before_fees_witness :
    jsIncludes (jsToLower "Restaurant Service Fee") "restaurant" = true ∧
    jsIncludes (jsToLower "Restaurant Service Fee") "fee" = true ∧
    simplifyCategory "Restaurant Service Fee" = "Restaurant" :=
  ⟨by decide, by decide,
    simplifyCategory_restaurant_before_fees "Restaurant Service Fee"
      (by decide) (by decide)⟩

/-- C6 counterexample: the input `"cafe"` contains the substring `"cafe"`
(case-insensitively), yet the normalizer returns `"Other"`, not
`"Restaurant"`: the third Restaurant keyword in the source is the mojibake
`"cafÃ©"` (bytes of `café` decoded as Latin-1), not `"cafe"`. -/
theorem simplifyCategory_cafe_counterexample :
    simplifyCategory "cafe" = "Other" ∧ simplifyCategory "cafe" ≠ "Restaurant" := by
  decide

/-- C6 (amended): the Restaurant keyword group is `{"restaurant", "food",
"cafÃ©", "fast food"}`; plain `"cafe"` is not in it, so an input containing
only `"cafe"` falls through (e.g. to `"Other"`), while any input whose
lowercased form contains `"food"` (in particular every `"fast food"`
input) does return `"Restaurant"`. -/
theorem simplifyCategory_food (s : String)
    (hf : jsIncludes (jsToLower s) "food" = true) :
    simplifyCategory s = "Restaurant" := by
  simp [simplifyCategory, hf]

theorem simplifyCategory_food_witness :
    jsIncludes (jsToLower "Fast Food") "food" = true ∧
    simplifyCategory "Fast Food" = "Restaurant" :=
  ⟨by decide, simplifyCategory_food "Fast Food" (by decide)⟩

/-- C3 counterexample: the canonical category `"Shopping"` does not get
the color the table assigns to it (`#22c55e`); `getCategoryColor`
normalizes its argument first, `"shopping"` matches no keyword group, and
the lookup falls back to the `"Other"` color `#a3a3a3`. -/
theorem getCategoryColor_shopping_counterexample :
    getCategoryColor "Shopping" = "#a3a3a3" ∧ getCategoryColor "Shopping" ≠ "#22c55e" := by
  decide

/-- C3 (amended): eight of the ten canonical categories map to the color
the table assigns to them; `"Shopping"` and `"Subscriptions"` contain none
of their own keyword-group keywords, normalize to `"Other"`, and therefore
get the `"Other"` color `#a3a3a3` instead of their table entries. -/
theorem getCategoryColor_canonical :
    getCategoryColor "Restaurant" = "#ef4444" ∧
    getCategoryColor "Groceries" = "#f97316" ∧
    getCategoryColor "Gas & Fuel" = "#eab308" ∧
    getCategoryColor "Shopping" = "#a3a3a3" ∧
    getCategoryColor "Entertainment" = "#06b6d4" ∧
    getCategoryColor "Subscriptions" = "#a3a3a3" ∧
    getCategoryColor "Travel" = "#8b5cf6" ∧
    getCategoryColor "Health" = "#ec4899" ∧
    getCategoryColor "Fees" = "#6b7280" ∧
    getCategoryColor "Other" = "#a3a3a3" := by
  decide

/-! ## Claims about the date parser -/

/-- C2 counterexample: `"a/b/c"` splits into three slash-parts, so the
slash branch runs `new Date(parseInt("c"), parseInt("a") - 1,
parseInt("b"))` with all parts `NaN`, producing an Invalid Date — not the
current date, and not a valid calendar date. -/
theorem parseDate_invalid_counterexample :
    parseDate 0 (fun _ => none) "a/b/c" = none ∧ (none : JSDate) ≠ some 0 := by
  decide

/-- C2 (amended): the date parser is total (it never raises), and whenever
the input does not split into exactly three slash-separated parts and the
generic date-string interpretation also fails, it returns the current
date.  The result is however not always a valid calendar date: a string
with exactly three slash-parts whose parts do not parse as integers yields
an Invalid Date. -/
theorem parseDate_fallback_now (now : Int) (genericParse : String → Option Int)
    (dateStr : String) (hlen : (jsSplit dateStr '/').length ≠ 3)
    (hgen : genericParse dateStr = none) :
    parseDate now genericParse dateStr = some now := by
  unfold parseDate
  rw [if_neg hlen, hgen]

theorem parseDate_fallback_now_witness :
    (jsSplit "March 15" '/').length ≠ 3 ∧
    parseDate 42 (fun _ => none) "March 15" = some 42 :=
  ⟨by decide, parseDate_fallback_now 42 (fun _ => none) "March 15" (by decide) rfl⟩

/-! ## Claims about the Record Builder -/

/-- A demo row as `Papa.parse` would yield it, with no `City/State`
column (the spec's §8 example row). -/
def demoRow : Row :=
  [("Date", "03/15/2024"), ("Description", "STARBUCKS #1234"),
   ("Amount", "$12.50"), ("Category", "Restaurants")]

/-- The record `parseCSV` builds from `demoRow` (with clock `0`, no
generic date parsing, and ids all `"id0"`):
2024-03-15 is day 19797 since the epoch. -/
def demoTx : Transaction :=
  { id := "id0", date := some (19797 * 86400000),
    description := "STARBUCKS #1234", amount := 25/2,
    category := "Restaurant", city := some "", state := none, fileId := "f1" }

theorem demo_parseCSV_eval :
    parseCSV 0 (fun _ => none) (fun _ => "id0") [demoRow] "f1" = [demoTx] := by
  have h1 : buildTransaction 0 (fun _ => none) "f1" "id0" demoRow = some demoTx := by
    simp [buildTransaction, Row.lookupField, demoRow, List.find?, parseAmount,
      jsParseFloat, grabSign, grabDigits, jsIsWhitespace, jsTrim, jsSplit, splitAtChar,
      parseDate, jsParseInt, jsNewDateYMD, makeDay, dayFromYear, isLeapYear,
      monthStartDay, simplifyCategory, jsToLower, jsToLowerChar, jsIncludes,
      hasSubstr, startsWith, List.getD, demoTx]
    norm_num
    decide
  simp [parseCSV, buildTransactions, h1, sortByDateDesc, List.insertionSort]

/-- C9: every record produced by `parseCSV` has a strictly positive
amount: the builder drops every row whose parsed amount is ≤ 0 (and
unparsable amounts parse to 0, so they are dropped too). -/
theorem parseCSV_amount_pos (now : Int) (gp : String → Option Int)
    (genId : Nat → String) (rows : List Row) (fileId : String) :
    ∀ t ∈ parseCSV now gp genId rows fileId, 0 < t.amount := by
  intro t ht
  obtain ⟨row, _, id, hb⟩ := mem_parseCSV ht
  exact (buildTransaction_fields hb).1

theorem parseCSV_amount_pos_witness :
    demoTx ∈ parseCSV 0 (fun _ => none) (fun _ => "id0") [demoRow] "f1" ∧
    0 < demoTx.amount := by
  have hm : demoTx ∈ parseCSV 0 (fun _ => none) (fun _ => "id0") [demoRow] "f1" := by
    rw [demo_parseCSV_eval]
    exact List.mem_singleton.mpr rfl
  exact ⟨hm, parseCSV_amount_pos 0 (fun _ => none) (fun _ => "id0") [demoRow] "f1"
    demoTx hm⟩

/-- C5 counterexample: `demoRow` has no `City/State` column, yet the
record built from it has `city` present and equal to the empty string
(`''.split('\n')` is `['']`, whose first element becomes `city`); only
`state` is absent. -/
theorem parseCSV_cityState_counterexample :
    (parseCSV 0 (fun _ => none) (fun _ => "id0") [demoRow] "f1").map
        (fun t => (t.city, t.state)) = [(some "", none)] ∧
    (some "" : Option String) ≠ none := by
  rw [demo_parseCSV_eval]
  exact ⟨by decide, by decide⟩

/-- C5 (amended): every record `parseCSV` builds comes from some input
row; when that row's `City/State` value is absent (or empty), the
record's `city` is the EMPTY STRING (present) and its `state` is absent;
when the value is present with a line-break, it is split there and the
two trimmed parts become `city` and `state`. -/
theorem parseCSV_cityState (now : Int) (gp : String → Option Int)
    (genId : Nat → String) (rows : List Row) (fileId : String) (t : Transaction)
    (ht : t ∈ parseCSV now gp genId rows fileId) :
    ∃ row ∈ rows,
      (row.lookupField "City/State" = "" → t.city = some "" ∧ t.state = none) ∧
      (∀ a b : String, '\n' ∉ a.toList → '\n' ∉ b.toList →
        row.lookupField "City/State" = a ++ "\n" ++ b →
        t.city = some (jsTrim a) ∧ t.state = some (jsTrim b)) := by
  obtain ⟨row, hrow, id, hb⟩ := mem_parseCSV ht
  have hf := buildTransaction_fields hb
  refine ⟨row, hrow, ?_, ?_⟩
  · intro hcs
    rw [hcs] at hf
    have he : ((jsSplit "" '\n').map jsTrim) = [""] := by decide
    rw [he] at hf
    exact ⟨hf.2.1, hf.2.2⟩
  · intro a b hna hnb hcs
    rw [hcs, jsSplit_two hna hnb] at hf
    exact ⟨hf.2.1, hf.2.2⟩

theorem parseCSV_cityState_witness :
    demoTx ∈ parseCSV 0 (fun _ => none) (fun _ => "id0") [demoRow] "f1" ∧
    ∃ row ∈ [demoRow],
      (row.lookupField "City/State" = "" → demoTx.city = some "" ∧ demoTx.state = none) ∧
      (∀ a b : String, '\n' ∉ a.toList → '\n' ∉ b.toList →
        row.lookupField "City/State" = a ++ "\n" ++ b →
        demoTx.city = some (jsTrim a) ∧ demoTx.state = some (jsTrim b)) := by
  have hm : demoTx ∈ parseCSV 0 (fun _ => none) (fun _ => "id0") [demoRow] "f1" := by
    rw [demo_parseCSV_eval]
    exact List.mem_singleton.mpr rfl
  exact ⟨hm, parseCSV_cityState 0 (fun _ => none) (fun _ => "id0") [demoRow] "f1"
    demoTx hm⟩

/-! ## Claims about the CSV export -/

/-- C4 counterexample: at the concrete input `[]` the export's column
row is `Date,Description,Amount,Category,City,State` — six columns, not
the seven (with a separate unformatted `Amount` before the formatted
one) the claim lists. -/
theorem exportToCSV_columns_counterexample :
    jsSplit (exportToCSV []) ',' =
      ["Date", "Description", "Amount", "Category", "City", "State"] ∧
    (jsSplit (exportToCSV []) ',').length ≠ 7 := by
  decide

/-- C4 (amended): the export is the header line followed by one line per
record with exactly six fields in fixed order — the date, the quoted
description with embedded quote characters doubled, the amount formatted
to two decimals, the category, the city, the state — joined by commas;
there is no separate unformatted Amount column. -/
theorem exportToCSV_format (ts : List Transaction) :
    exportToCSV ts = joinWith "\n"
      ("Date,Description,Amount,Category,City,State" ::
        ts.map fun t =>
          toLocaleDateString t.date ++ "," ++
          ("\"" ++ escapeQuotes t.description ++ "\"") ++ "," ++
          toFixed2 t.amount ++ "," ++ t.category ++ "," ++
          t.city.getD "" ++ "," ++ t.state.getD "") := by
  simp only [exportToCSV]
  congr 1
  congr 1
  rw [List.map_map]
  apply List.map_congr_left
  intro t _
  simp [joinWith, String.append_assoc]

end FinanceTracker

